import Mathlib

/-!
A shallow embedding of the DHT22 single-wire sensor driver
(`src/components/dht22/dht22.c`, `dht22.h`) together with proofs about its
frame decoder, bit-acquisition timing loops, read-rate gate and handle
lifecycle.

Machine integers are embedded as `Nat`, with an explicit `% 2^32` wherever the
C `uint32_t` arithmetic can actually wrap and `% 65536` at every `uint16_t`
store.  C `int` loop indices are embedded as `Nat`: every reachable index in
the source is non-negative (the checksum loop's final test at `x = -1` is
replaced by running the loop for its exact iteration count).
-/

/-- Result codes, from `dht_result_t` in dht22.h. -/
inductive dht_result_t where
  | DHT_OK
  | DHT_INVALID_INPUT
  | DHT_MALLOC_FAILED
  | DHT_FAILED_TO_SET_PIN_MODE
  | DHT_READ_QUERY_TOO_FREQUENT
  | DHT_FAILED_TO_SET_PIN_DIRECTION
  | DHT_FAILED_TO_SET_PIN_LEVEL
  | DHT_SENSOR_DID_NOT_SWITCH_TO_HIGH
  | DHT_SENSOR_DID_NOT_SWITCH_TO_LOW
  | DHT_INVALID_CHECKSUM
  deriving DecidableEq

open dht_result_t

/-- `dht_data_t` (dht22.h): fixed-point output fields, all `uint16_t`. -/
structure dht_data_t where
  faTempWhole : Nat
  faTempFraction : Nat
  csTempWhole : Nat
  csTempFraction : Nat
  rhWhole : Nat
  rhFraction : Nat
  deriving DecidableEq

/-- `dht_t` (dht22.h).  `name` is the 32-byte name array (indexed by byte
position), `opaquePtr` embeds the `opaque` pointer field (the address of the
private `dhtpvt_t` context) and `pc` the `TickType_t` timestamp field. -/
structure dht_t where
  name : Nat → Nat
  pin : Nat
  opaquePtr : Nat
  pc : Nat

def DHT_LOW : Nat := 0

def DHT_HIGH : Nat := 1

def DHT_MAX_SENSOR_NAME : Nat := 32

/-- Modulus of `uint32_t` arithmetic. -/
def UINT32_MOD : Nat := 4294967296

/-- Modelled from the spec: the FreeRTOS tick-rate configuration is external
to the repository, so ticks are modelled in milliseconds and `pdMS_TO_TICKS`
is the identity. -/
def pdMS_TO_TICKS (ms : Nat) : Nat := ms

/-- `uint32_t` subtraction `a - b` (wrapping), as applied to `TickType_t`
values in `dhtRead`. -/
def u32sub (a b : Nat) : Nat :=
  (UINT32_MOD + a % UINT32_MOD - b % UINT32_MOD) % UINT32_MOD

/-- The common shape of the three bit-assembly loops in `dhtProcessRawData`
(dht22.c:328-331, 337-340, 348-351): `acc |= f x; acc <<= (lo < x ? 1 : 0)`
with `x` stepping down to `lo` and `fuel` the number of remaining iterations
(`x + 1 - lo` at every call).  The C accumulator is `uint32_t`; with at most
16 iterations contributing one bit each it stays below `2^16`, so plain `Nat`
arithmetic is exact. -/
def dhtAccum (f : Nat → Nat) (lo : Nat) : Nat → Nat → Nat → Nat
  | 0, _, acc => acc
  | fuel+1, x, acc =>
    dhtAccum f lo fuel (x - 1) (if lo < x then (acc ||| f x) <<< 1 else acc ||| f x)

/-- The decode-time bit threshold `b[x] > 19 ? 1 : 0` (dht22.c:329,338,349). -/
def bitAt (b : Nat → Nat) (x : Nat) : Nat := if b x > 19 then 1 else 0

/-- Humidity field: indices 39..24, MSB first (dht22.c:328-331). -/
def rhOf (b : Nat → Nat) : Nat := dhtAccum (bitAt b) 24 16 39 0

/-- Temperature magnitude: indices 22..8, MSB first (dht22.c:337-340);
index 23 is the sign flag and is excluded from the accumulation. -/
def tempMagOf (b : Nat → Nat) : Nat := dhtAccum (bitAt b) 8 15 22 0

/-- Checksum field: indices 7..0, MSB first (dht22.c:348-351). -/
def checksumOf (b : Nat → Nat) : Nat := dhtAccum (bitAt b) 0 8 7 0

/-- The `temp` value after sign application (dht22.c:335, 342-344):
`temp *= -1` on a `uint32_t` is two's-complement negation modulo `2^32`. -/
def dhtTempSigned (b : Nat → Nat) : Nat :=
  if b 23 > 19 then (UINT32_MOD - tempMagOf b) % UINT32_MOD else tempMagOf b

/-- `calculated_checksum` (dht22.c:356-357): byte-sum of the `rh` and `temp`
values held in the `uint32_t` variables at that point, masked to 8 bits.
No summand exceeds 65280, so the `uint32_t` additions cannot wrap. -/
def dhtCalcChecksum (rh temp : Nat) : Nat :=
  (((rh &&& 65280) >>> 8) + (rh &&& 255) + ((temp &&& 65280) >>> 8) + (temp &&& 255)) &&& 255

/-- The Fahrenheit intermediate (dht22.c:374-376): `temp *= 100; temp /= 50;
temp *= 9` in `uint32_t` arithmetic (`temp3 * 9` stays below `2^32` because
`temp2 / 50 < 2^32 / 50`, but the wrap is kept for fidelity). -/
def dhtFaTemp (b : Nat → Nat) : Nat :=
  ((dhtTempSigned b * 100) % UINT32_MOD / 50 * 9) % UINT32_MOD

/-- `dhtProcessRawData` (dht22.c:317-381).  On checksum mismatch it returns
`DHT_INVALID_CHECKSUM` before any output field has been assigned, so the
measurement component is `none` there.  Every store into the `uint16_t`
output fields is truncated `% 65536`; `temp * 10` is a `uint32_t`
multiplication and is reduced `% 2^32` before `% 100`. -/
def dhtProcessRawData (b : Nat → Nat) : dht_result_t × Option dht_data_t :=
  if checksumOf b ≠ dhtCalcChecksum (rhOf b) (dhtTempSigned b) then
    (DHT_INVALID_CHECKSUM, none)
  else
    (DHT_OK, some {
      faTempWhole := (dhtFaTemp b / 100 + 32) % 65536
      faTempFraction := dhtFaTemp b % 100 % 65536
      csTempWhole := dhtTempSigned b / 10 % 65536
      csTempFraction := dhtTempSigned b * 10 % UINT32_MOD % 100 % 65536
      rhWhole := rhOf b / 10 % 65536
      rhFraction := rhOf b % 10 % 65536 })

/-- The byte-sum checksum over the humidity and temperature fields as
transmitted, following the spec's words (§4.4): high byte plus low byte of
each 16-bit field, reduced mod 256.  Declared separately from the source's
`dhtCalcChecksum` so the two can be compared. -/
def spec_transmittedChecksum (hum temp : Nat) : Nat :=
  (hum / 256 % 256 + hum % 256 + temp / 256 % 256 + temp % 256) % 256

/-- Frame generation by the threshold rule (spec §8, claims C4/C6): index `x`
carries bit `x-24` of the 16-bit humidity field for `24 ≤ x ≤ 39`, bit `x-8`
of the 16-bit temperature field for `8 ≤ x ≤ 23`, and bit `x` of the checksum
byte for `x ≤ 7`.  A 1-bit is a 70-sample duration (above the decoder's `19`
threshold), a 0-bit a 1-sample duration. -/
def encodeFrame (hum temp cs : Nat) (x : Nat) : Nat :=
  if 24 ≤ x ∧ x ≤ 39 then (if hum / 2 ^ (x - 24) % 2 = 1 then 70 else 1)
  else if 8 ≤ x ∧ x ≤ 23 then (if temp / 2 ^ (x - 8) % 2 = 1 then 70 else 1)
  else if x ≤ 7 then (if cs / 2 ^ x % 2 = 1 then 70 else 1)
  else 0

/-- The polling-loop pattern
`while (counter++ < limit && gpio_get_level(...) == level) ets_delay_us(1);`
followed by the check `prevState == level` (dht22.c:236-254, 263-280).
`line` maps a sample number to the sampled level and each read consumes one
sample.  Returns the final value of `counter`, the next sample number, and
whether the loop timed out with the line still at `level` (the value of the
post-loop `prevState == level` test). -/
def waitLoop (line : Nat → Nat) (level : Nat) : Nat → Nat → Nat → Nat × Nat × Bool
  | 0, counter, t => (counter + 1, t, true)
  | fuel+1, counter, t =>
    if line t = level then waitLoop line level fuel (counter + 1) (t + 1)
    else (counter + 1, t + 1, false)

/-- The 40-bit acquisition loop (dht22.c:257-284).  For the iteration entered
with `r+1` bits remaining the C loop variable is `x = 40-(r+1)`, and the
final counter of the 70-sample high phase is stored at
`b[40-(x+1)] = b[r]`. -/
def dhtBitLoop (line : Nat → Nat) : Nat → Nat → (Nat → Nat) → dht_result_t × (Nat → Nat) × Nat
  | 0, t, b => (DHT_OK, b, t)
  | r+1, t, b =>
    let w1 := waitLoop line DHT_LOW 50 0 t
    if w1.2.2 then (DHT_SENSOR_DID_NOT_SWITCH_TO_HIGH, b, w1.2.1)
    else
      let w2 := waitLoop line DHT_HIGH 70 0 w1.2.1
      if w2.2.2 then (DHT_SENSOR_DID_NOT_SWITCH_TO_LOW, b, w2.2.1)
      else dhtBitLoop line r w2.2.1 (fun i => if i = r then w2.1 else b i)

/-- Outcomes of the external GPIO collaborator calls made by one
`dhtReadRawData` run, in call order, plus the sampled line levels. -/
structure GpioEnv where
  setDirOutOk : Bool
  setLowOk : Bool
  setHighOk : Bool
  setDirInOk : Bool
  line : Nat → Nat

/-- `dhtReadRawData` (dht22.c:201-297): GPIO configuration and wake signals,
the two 80-sample handshake waits, then the 40-bit loop.  Returns the result
code, the duration buffer and the number of samples consumed. -/
def dhtReadRawData (env : GpioEnv) (b : Nat → Nat) : dht_result_t × (Nat → Nat) × Nat :=
  if env.setDirOutOk = false then (DHT_FAILED_TO_SET_PIN_DIRECTION, b, 0)
  else if env.setLowOk = false then (DHT_FAILED_TO_SET_PIN_LEVEL, b, 0)
  else if env.setHighOk = false then (DHT_FAILED_TO_SET_PIN_LEVEL, b, 0)
  else if env.setDirInOk = false then (DHT_FAILED_TO_SET_PIN_DIRECTION, b, 0)
  else
    let w1 := waitLoop env.line DHT_LOW 80 0 0
    if w1.2.2 then (DHT_SENSOR_DID_NOT_SWITCH_TO_HIGH, b, w1.2.1)
    else
      let w2 := waitLoop env.line DHT_HIGH 80 0 w1.2.1
      if w2.2.2 then (DHT_SENSOR_DID_NOT_SWITCH_TO_LOW, b, w2.2.1)
      else dhtBitLoop env.line 40 w2.2.1 b

/-- `dhtRead` (dht22.c:148-175): the rate gate
`(ticks - pDht->pc) < pdMS_TO_TICKS(2000)` in `uint32_t` arithmetic, then the
raw read over a zero-initialised buffer, then the decoder.  The `dht_t`
component of the result is the handle as left by the call; the source never
assigns to any handle field inside `dhtRead` or its callees, which the
embedding records by returning the input handle on every path.  (The NULL
checks on the two pointer arguments precede the gate in the source and are
not represented: the embedding passes both by value.) -/
def dhtRead (pDht : dht_t) (ticks : Nat) (env : GpioEnv) : dht_result_t × Option dht_data_t × dht_t :=
  if u32sub ticks pDht.pc < pdMS_TO_TICKS 2000 then (DHT_READ_QUERY_TOO_FREQUENT, none, pDht)
  else
    let raw := dhtReadRawData env (fun _ => 0)
    if raw.1 = DHT_OK then
      let pr := dhtProcessRawData raw.2.1
      (pr.1, pr.2, pDht)
    else (raw.1, none, pDht)

/-- Environment for `dhtInitialize`'s external collaborators:
`GPIO_IS_VALID_GPIO`, the two `malloc` results (`none` = allocation failure,
`some a` = fresh block at address `a`), `gpio_set_pull_mode`, and the
uninitialised contents that the freshly allocated `dht_t.name` array happens
to hold. -/
structure InitEnv where
  gpioValid : Nat → Bool
  pvtAlloc : Option Nat
  dhtAlloc : Option Nat
  pullModeOk : Bool
  junkName : Nat → Nat

/-- Outcome of `dhtInitialize`: the result code, the caller's `name` buffer
after the call (`none` when `name` was NULL), and `*ppDht` when written. -/
structure InitResult where
  result : dht_result_t
  nameBuf : Option (Nat → Nat)
  handle : Option dht_t

/-- `dhtInitialize` (dht22.c:49-110), embedded as `dhtInit`.  In source
order: pin validity, NULL/empty `name`, the null-terminator scan over the
first 32 bytes — writing `name[DHT_MAX_SENSOR_NAME-1] = 0` into the CALLER's
buffer when no terminator is found — then the NULL check on `ppDht`, the two
allocations, and the pull-mode configuration.  The success path assigns
`pin`, `pc = 0` and `opaque` (dht22.c:104-108) but never copies `name` into
the handle, whose `name` array keeps its uninitialised contents. -/
def dhtInit (env : InitEnv) (pinId : Nat) (name : Option (Nat → Nat)) (ppDhtNull : Bool) : InitResult :=
  if env.gpioValid pinId = false then ⟨DHT_INVALID_INPUT, name, none⟩
  else
    match name with
    | none => ⟨DHT_INVALID_INPUT, none, none⟩
    | some nm =>
      if nm 0 = 0 then ⟨DHT_INVALID_INPUT, some nm, none⟩
      else
        let nullTerminated := (List.range DHT_MAX_SENSOR_NAME).any fun x => nm x == 0
        let nm2 := if nullTerminated then nm
                   else fun i => if i = DHT_MAX_SENSOR_NAME - 1 then 0 else nm i
        if ppDhtNull then ⟨DHT_INVALID_INPUT, some nm2, none⟩
        else
          match env.pvtAlloc with
          | none => ⟨DHT_MALLOC_FAILED, some nm2, none⟩
          | some pvtAddr =>
            match env.dhtAlloc with
            | none => ⟨DHT_MALLOC_FAILED, some nm2, none⟩
            | some _dhtAddr =>
              if env.pullModeOk = false then ⟨DHT_FAILED_TO_SET_PIN_MODE, some nm2, none⟩
              else ⟨DHT_OK, some nm2, some ⟨env.junkName, pinId, pvtAddr, 0⟩⟩

/-- Outcome of `dhtCleanup`: the result code, `*ppDht` after the call, and
the addresses passed to `free`, split by which allocation they belong to
(`freedDht` for `dht_t` blocks, `freedPvt` for `dhtpvt_t` blocks). -/
structure CleanupResult where
  result : dht_result_t
  ppDht : Option (Option Nat)
  freedDht : List Nat
  freedPvt : List Nat
  deriving DecidableEq

/-- `dhtCleanup` (dht22.c:120-141).  `opaqueOf a` reads the `opaque` field of
the `dht_t` at address `a`; `pDhtAddressOf p` reads the `pDhtAddress` field
of the `dhtpvt_t` at address `p`.  The argument is `*ppDht` behind the NULL
checks (`none` = `ppDht == NULL`, `some none` = `*ppDht == NULL`).  On the
success path the source executes `free(*ppDht); *ppDht = NULL;` — the
`dhtpvt_t` context block is never freed, which the embedding records with an
empty `freedPvt` list. -/
def dhtCleanup (opaqueOf : Nat → Nat) (pDhtAddressOf : Nat → Nat) : Option (Option Nat) → CleanupResult
  | none => ⟨DHT_INVALID_INPUT, none, [], []⟩
  | some none => ⟨DHT_INVALID_INPUT, some none, [], []⟩
  | some (some a) =>
    if pDhtAddressOf (opaqueOf a) ≠ a then ⟨DHT_INVALID_INPUT, some (some a), [], []⟩
    else ⟨DHT_OK, some none, [a], []⟩

/-- The MSB-first positional value of the bits `f lo, f (lo+1), ..., f (lo+n)`
(bit `f (lo+k)` at weight `2^k`); the closed form of `dhtAccum`. -/
def bitsVal (f : Nat → Nat) (lo : Nat) : Nat → Nat
  | 0 => f lo
  | n+1 => bitsVal f lo n + f (lo + n + 1) * 2 ^ (n + 1)

/-- Concrete sample stream used to exercise the bit-acquisition loop: one low
sample, two high samples, then low. -/
def line0 : Nat → Nat := fun n => if n = 0 then 0 else if n ≤ 2 then 1 else 0

/-- A GPIO environment in which every configuration call succeeds. -/
def gpio0 : GpioEnv := ⟨true, true, true, true, fun _ => 1⟩

/-- A concrete handle with `pc = 0`, as produced by `dhtInitialize`. -/
def handle0 : dht_t := ⟨fun _ => 0, 5, 1, 0⟩

/-- An `InitEnv` in which the pin is valid, both allocations succeed at
addresses 1 and 2, pull-mode setup succeeds, and the fresh `name` array is
zero-filled. -/
def envInit0 : InitEnv := ⟨fun _ => true, some 1, some 2, true, fun _ => 0⟩

/-- A name buffer with no null terminator anywhere. -/
def nm65 : Nat → Nat := fun _ => 65

/-- A name buffer holding the one-character string `A`. -/
def nmA : Nat → Nat := fun i => if i = 0 then 65 else 0

theorem dhtAccum_zero (f : Nat → Nat) (lo x acc : Nat) : dhtAccum f lo 0 x acc = acc := rfl

theorem dhtAccum_succ (f : Nat → Nat) (lo fuel x acc : Nat) :
    dhtAccum f lo (fuel + 1) x acc
      = dhtAccum f lo fuel (x - 1) (if lo < x then (acc ||| f x) <<< 1 else acc ||| f x) := rfl

theorem bitsVal_zero (f : Nat → Nat) (lo : Nat) : bitsVal f lo 0 = f lo := rfl

theorem bitsVal_succ (f : Nat → Nat) (lo n : Nat) :
    bitsVal f lo (n + 1) = bitsVal f lo n + f (lo + n + 1) * 2 ^ (n + 1) := rfl

/-- In the accumulation loops the accumulator is even whenever a bit is
OR-ed in, so `|||` coincides with `+` there. -/
theorem even_lor_bit (a c : Nat) (ha : a % 2 = 0) (hc : c ≤ 1) : a ||| c = a + c := by
  interval_cases c
  · simp
  · apply Nat.eq_of_testBit_eq
    intro i
    cases i with
    | zero =>
      simp only [Nat.testBit_or, Nat.testBit_zero]
      have h1 : (a + 1) % 2 = 1 := by omega
      have h2 : a % 2 ≠ 1 := by omega
      simp [h1, h2]
    | succ n =>
      rw [Nat.testBit_or, Nat.testBit_succ, Nat.testBit_succ, Nat.testBit_succ]
      have h1 : (a + 1) / 2 = a / 2 := by omega
      have h2 : (1 : Nat) / 2 = 0 := by norm_num
      rw [h1, h2]
      simp

theorem shiftLeft_one (m : Nat) : m <<< 1 = 2 * m := by
  rw [Nat.shiftLeft_eq]
  ring

theorem bitAt_le_one (b : Nat → Nat) (x : Nat) : bitAt b x ≤ 1 := by
  unfold bitAt
  split <;> omega

/-- Closed form of the bit-assembly loop: started at `x = lo + n` with `n+1`
iterations left and an even accumulator, it computes `acc * 2^n` plus the
positional value of the bits at indices `lo .. lo+n`. -/
theorem dhtAccum_eq (f : Nat → Nat) (lo : Nat) (hf : ∀ i, f i ≤ 1) :
    ∀ n acc, acc % 2 = 0 →
      dhtAccum f lo (n + 1) (lo + n) acc = acc * 2 ^ n + bitsVal f lo n := by
  intro n
  induction n with
  | zero =>
    intro acc ha
    have hlt : ¬ lo < lo + 0 := by omega
    rw [dhtAccum_succ, if_neg hlt, dhtAccum_zero,
      even_lor_bit acc (f (lo + 0)) ha (hf (lo + 0)), bitsVal_zero]
    simp
  | succ n ih =>
    intro acc ha
    have hlt : lo < lo + (n + 1) := by omega
    rw [dhtAccum_succ, if_pos hlt,
      even_lor_bit acc (f (lo + (n + 1))) ha (hf (lo + (n + 1))), shiftLeft_one]
    have hx : lo + (n + 1) - 1 = lo + n := by omega
    rw [hx, ih (2 * (acc + f (lo + (n + 1)))) (by omega), bitsVal_succ, ← Nat.add_assoc]
    ring

/-- A value assembled from `n+1` one-bit contributions is below `2^(n+1)`. -/
theorem bitsVal_lt (f : Nat → Nat) (lo : Nat) (hf : ∀ i, f i ≤ 1) :
    ∀ n, bitsVal f lo n < 2 ^ (n + 1) := by
  intro n
  induction n with
  | zero =>
    rw [bitsVal_zero]
    have := hf lo
    omega
  | succ n ih =>
    rw [bitsVal_succ]
    have h1 := hf (lo + n + 1)
    have h2 : f (lo + n + 1) * 2 ^ (n + 1) ≤ 2 ^ (n + 1) := by
      calc f (lo + n + 1) * 2 ^ (n + 1) ≤ 1 * 2 ^ (n + 1) := Nat.mul_le_mul_right _ h1
        _ = 2 ^ (n + 1) := Nat.one_mul _
    have h3 : (2 : Nat) ^ (n + 1 + 1) = 2 ^ (n + 1) + 2 ^ (n + 1) := by ring
    omega

theorem rhOf_eq (b : Nat → Nat) : rhOf b = bitsVal (bitAt b) 24 15 := by
  have h := dhtAccum_eq (bitAt b) 24 (bitAt_le_one b) 15 0 (by norm_num)
  unfold rhOf
  norm_num at h
  exact h

theorem tempMagOf_eq (b : Nat → Nat) : tempMagOf b = bitsVal (bitAt b) 8 14 := by
  have h := dhtAccum_eq (bitAt b) 8 (bitAt_le_one b) 14 0 (by norm_num)
  unfold tempMagOf
  norm_num at h
  exact h

theorem checksumOf_eq (b : Nat → Nat) : checksumOf b = bitsVal (bitAt b) 0 7 := by
  have h := dhtAccum_eq (bitAt b) 0 (bitAt_le_one b) 7 0 (by norm_num)
  unfold checksumOf
  norm_num at h
  exact h

theorem rhOf_lt (b : Nat → Nat) : rhOf b < 65536 := by
  have h := bitsVal_lt (bitAt b) 24 (bitAt_le_one b) 15
  rw [rhOf_eq]
  norm_num at h
  exact h

theorem tempMagOf_lt (b : Nat → Nat) : tempMagOf b < 32768 := by
  have h := bitsVal_lt (bitAt b) 8 (bitAt_le_one b) 14
  rw [tempMagOf_eq]
  norm_num at h
  exact h

theorem checksumOf_lt (b : Nat → Nat) : checksumOf b < 256 := by
  have h := bitsVal_lt (bitAt b) 0 (bitAt_le_one b) 7
  rw [checksumOf_eq]
  norm_num at h
  exact h

/-- Masking with `0xff` is reduction mod 256. -/
theorem and_255_eq_mod (v : Nat) : v &&& 255 = v % 256 := by
  have h : v &&& 255 = v &&& 2 ^ 8 - 1 := by norm_num
  rw [h, Nat.and_pow_two_sub_one_eq_mod]

/-- Masking with `0xff00` then shifting right by 8 extracts the second byte. -/
theorem and_65280_shr_8 (v : Nat) : (v &&& 65280) >>> 8 = v / 256 % 256 := by
  have h3 : (256 : Nat) = 2 ^ 8 := by norm_num
  have h2 : v / 2 ^ 8 = v >>> 8 := by simp [Nat.shiftRight_eq_div_pow]
  have h1 : (65280 : Nat) = (2 ^ 8 - 1) <<< 8 := by decide
  apply Nat.eq_of_testBit_eq
  intro i
  rw [Nat.testBit_shiftRight, Nat.testBit_and, h1, Nat.testBit_shiftLeft,
    Nat.testBit_two_pow_sub_one, h3, h2, Nat.testBit_mod_two_pow, Nat.testBit_shiftRight]
  have h5 : 8 + i - 8 = i := by omega
  have h6 : decide (8 ≤ 8 + i) = true := by simp
  rw [h5, h6]
  cases hv : v.testBit (8 + i) <;> cases hd : decide (i < 8) <;> simp

/-- The source's checksum computation agrees with the spec's byte-sum formula
applied to whatever 16-bit quantities sit in `rh` and `temp`. -/
theorem dhtCalcChecksum_eq_spec (x y : Nat) :
    dhtCalcChecksum x y = spec_transmittedChecksum x y := by
  unfold dhtCalcChecksum spec_transmittedChecksum
  rw [and_65280_shr_8, and_65280_shr_8, and_255_eq_mod, and_255_eq_mod, and_255_eq_mod]

/-- If the bits at `lo .. lo+n` are the binary digits of `g`, their positional
value is `g` reduced modulo `2^(n+1)`. -/
theorem bitsVal_bits (g lo : Nat) (f : Nat → Nat) :
    ∀ n, (∀ k, k ≤ n → f (lo + k) = g / 2 ^ k % 2) → bitsVal f lo n = g % 2 ^ (n + 1) := by
  intro n
  induction n with
  | zero =>
    intro hbits
    have h0 := hbits 0 (by omega)
    simp at h0
    rw [bitsVal_zero, h0]
    norm_num
  | succ n ih =>
    intro hbits
    have hstep := hbits (n + 1) (by omega)
    have hih := ih (fun k hk => hbits k (by omega))
    rw [bitsVal_succ, hih]
    rw [show lo + (n + 1) = lo + n + 1 by omega] at hstep
    rw [hstep, @Nat.mod_pow_succ g 2 (n + 1)]
    ring

/-- Thresholding a generated duration recovers the encoded humidity bit. -/
theorem encode_bitAt_hum (hum temp cs k : Nat) (hk : k ≤ 15) :
    bitAt (encodeFrame hum temp cs) (24 + k) = hum / 2 ^ k % 2 := by
  unfold bitAt encodeFrame
  have hc1 : 24 ≤ 24 + k ∧ 24 + k ≤ 39 := by omega
  rw [if_pos hc1, show 24 + k - 24 = k by omega]
  rcases Nat.mod_two_eq_zero_or_one (hum / 2 ^ k) with h | h <;> rw [h] <;> norm_num

/-- Thresholding a generated duration recovers the encoded temperature bit
(for `k = 15` this is the sign position, frame index 23). -/
theorem encode_bitAt_temp (hum temp cs k : Nat) (hk : k ≤ 15) :
    bitAt (encodeFrame hum temp cs) (8 + k) = temp / 2 ^ k % 2 := by
  unfold bitAt encodeFrame
  have hc1 : ¬ (24 ≤ 8 + k ∧ 8 + k ≤ 39) := by omega
  have hc2 : 8 ≤ 8 + k ∧ 8 + k ≤ 23 := by omega
  rw [if_neg hc1, if_pos hc2, show 8 + k - 8 = k by omega]
  rcases Nat.mod_two_eq_zero_or_one (temp / 2 ^ k) with h | h <;> rw [h] <;> norm_num

/-- Thresholding a generated duration recovers the encoded checksum bit. -/
theorem encode_bitAt_cs (hum temp cs k : Nat) (hk : k ≤ 7) :
    bitAt (encodeFrame hum temp cs) (0 + k) = cs / 2 ^ k % 2 := by
  unfold bitAt encodeFrame
  have hc1 : ¬ (24 ≤ 0 + k ∧ 0 + k ≤ 39) := by omega
  have hc2 : ¬ (8 ≤ 0 + k ∧ 0 + k ≤ 23) := by omega
  have hc3 : 0 + k ≤ 7 := by omega
  rw [if_neg hc1, if_neg hc2, if_pos hc3, show 0 + k = k by omega]
  rcases Nat.mod_two_eq_zero_or_one (cs / 2 ^ k) with h | h <;> rw [h] <;> norm_num

/-- Decoding a generated frame recovers the humidity field. -/
theorem encode_rhOf (hum temp cs : Nat) :
    rhOf (encodeFrame hum temp cs) = hum % 65536 := by
  rw [rhOf_eq,
    bitsVal_bits hum 24 (bitAt (encodeFrame hum temp cs)) 15
      (fun k hk => encode_bitAt_hum hum temp cs k hk)]
  norm_num

/-- Decoding a generated frame recovers the 15-bit temperature magnitude. -/
theorem encode_tempMagOf (hum temp cs : Nat) :
    tempMagOf (encodeFrame hum temp cs) = temp % 32768 := by
  rw [tempMagOf_eq,
    bitsVal_bits temp 8 (bitAt (encodeFrame hum temp cs)) 14
      (fun k hk => encode_bitAt_temp hum temp cs k (by omega))]
  norm_num

/-- Decoding a generated frame recovers the checksum byte. -/
theorem encode_checksumOf (hum temp cs : Nat) :
    checksumOf (encodeFrame hum temp cs) = cs % 256 := by
  rw [checksumOf_eq,
    bitsVal_bits cs 0 (bitAt (encodeFrame hum temp cs)) 7
      (fun k hk => encode_bitAt_cs hum temp cs k (by omega))]
  norm_num

/-- On a generated frame the decoder's sign test at index 23 reads bit 15 of
the temperature field. -/
theorem encode_sign (hum temp cs : Nat) :
    bitAt (encodeFrame hum temp cs) 23 = temp / 32768 % 2 := by
  have h := encode_bitAt_temp hum temp cs 15 (by omega)
  norm_num at h
  exact h

/-- Claim C4, amended: restricted to temperature fields with the sign bit
clear (`temp < 2^15`), decoding the frame generated from a checksum-consistent
`(humidity, temperature, checksum)` triple by the threshold rule recovers
exactly that triple, and the derived fixed-point fields follow the §4.4
integer arithmetic order (Celsius whole `t/10`, Celsius fraction `t*10 % 100`,
humidity `h/10`/`h%10`, Fahrenheit from `t*100/50*9` by `/100 + 32` and
`% 100`). -/
theorem dhtProcess_roundtrip (hum temp cs : Nat) (hh : hum < 65536) (ht : temp < 32768)
    (hc : cs < 256) (hcs : cs = spec_transmittedChecksum hum temp) :
    dhtProcessRawData (encodeFrame hum temp cs)
      = (DHT_OK, some ⟨temp * 100 / 50 * 9 / 100 + 32, temp * 100 / 50 * 9 % 100,
          temp / 10, temp * 10 % 100, hum / 10, hum % 10⟩)
    ∧ rhOf (encodeFrame hum temp cs) = hum
    ∧ tempMagOf (encodeFrame hum temp cs) = temp
    ∧ checksumOf (encodeFrame hum temp cs) = cs := by
  have hrh : rhOf (encodeFrame hum temp cs) = hum := by
    rw [encode_rhOf]
    omega
  have htm : tempMagOf (encodeFrame hum temp cs) = temp := by
    rw [encode_tempMagOf]
    omega
  have hck : checksumOf (encodeFrame hum temp cs) = cs := by
    rw [encode_checksumOf]
    omega
  have hb23 : bitAt (encodeFrame hum temp cs) 23 = 0 := by
    rw [encode_sign, Nat.div_eq_of_lt ht]
  have hsgn : ¬ encodeFrame hum temp cs 23 > 19 := by
    intro hgt
    unfold bitAt at hb23
    rw [if_pos hgt] at hb23
    omega
  have hts : dhtTempSigned (encodeFrame hum temp cs) = temp := by
    unfold dhtTempSigned
    rw [if_neg hsgn, htm]
  have hne : checksumOf (encodeFrame hum temp cs)
      = dhtCalcChecksum (rhOf (encodeFrame hum temp cs))
          (dhtTempSigned (encodeFrame hum temp cs)) := by
    rw [hrh, hts, hck, dhtCalcChecksum_eq_spec, ← hcs]
  have hdec : dhtProcessRawData (encodeFrame hum temp cs)
      = (DHT_OK, some ⟨temp * 100 / 50 * 9 / 100 + 32, temp * 100 / 50 * 9 % 100,
          temp / 10, temp * 10 % 100, hum / 10, hum % 10⟩) := by
    unfold dhtProcessRawData dhtFaTemp
    rw [if_neg (by simp [hne])]
    simp only [hts, hrh, UINT32_MOD, Prod.mk.injEq, Option.some.injEq,
      dht_data_t.mk.injEq, true_and]
    refine ⟨?_, ?_, ?_, ?_, ?_, ?_⟩
    · have a1 : temp * 100 < 4294967296 := by omega
      have h1 : temp * 100 / 50 ≤ 65534 := by omega
      have a2 : temp * 100 / 50 * 9 < 4294967296 := by omega
      have a3 : temp * 100 / 50 * 9 / 100 + 32 < 65536 := by
        have h2 : temp * 100 / 50 * 9 / 100 ≤ 5898 := by omega
        omega
      rw [Nat.mod_eq_of_lt a1, Nat.mod_eq_of_lt a2, Nat.mod_eq_of_lt a3]
    · have a1 : temp * 100 < 4294967296 := by omega
      have h1 : temp * 100 / 50 ≤ 65534 := by omega
      have a2 : temp * 100 / 50 * 9 < 4294967296 := by omega
      rw [Nat.mod_eq_of_lt a1, Nat.mod_eq_of_lt a2,
        Nat.mod_eq_of_lt (show temp * 100 / 50 * 9 % 100 < 65536 by omega)]
    · rw [Nat.mod_eq_of_lt (show temp / 10 < 65536 by omega)]
    · rw [Nat.mod_eq_of_lt (show temp * 10 < 4294967296 by omega),
        Nat.mod_eq_of_lt (show temp * 10 % 100 < 65536 by omega)]
    · rw [Nat.mod_eq_of_lt (show hum / 10 < 65536 by omega)]
    · rw [Nat.mod_eq_of_lt (show hum % 10 < 65536 by omega)]
  exact ⟨hdec, hrh, htm, hck⟩

/-- Claim C3, amended: the decoder returns `DHT_INVALID_CHECKSUM` exactly when
the transmitted checksum field differs from the source's byte-sum, which is
computed over the humidity field and the SIGN-APPLIED temperature value
(`dhtTempSigned`), not over the transmitted temperature field; whenever the
sign bit is clear the two coincide.  On a checksum mismatch no measurement
field is produced. -/
theorem dhtProcess_checksum_rule (b : Nat → Nat) :
    ((dhtProcessRawData b).1 = DHT_INVALID_CHECKSUM
        ↔ checksumOf b ≠ dhtCalcChecksum (rhOf b) (dhtTempSigned b))
    ∧ ((dhtProcessRawData b).1 = DHT_INVALID_CHECKSUM → (dhtProcessRawData b).2 = none)
    ∧ (b 23 ≤ 19 →
        dhtCalcChecksum (rhOf b) (dhtTempSigned b)
          = spec_transmittedChecksum (rhOf b) (tempMagOf b)) := by
  refine ⟨?_, ?_, ?_⟩
  · unfold dhtProcessRawData
    by_cases hne : checksumOf b ≠ dhtCalcChecksum (rhOf b) (dhtTempSigned b) <;> simp [hne]
  · unfold dhtProcessRawData
    by_cases hne : checksumOf b ≠ dhtCalcChecksum (rhOf b) (dhtTempSigned b) <;> simp [hne]
  · intro hle
    have hsgn : ¬ b 23 > 19 := by omega
    unfold dhtTempSigned
    rw [if_neg hsgn, dhtCalcChecksum_eq_spec]

/-- `uint32_t` tick subtraction is exact subtraction while the elapsed time
fits in 32 bits. -/
theorem u32sub_small (a c : Nat) (h1 : c ≤ a) (h2 : a - c < 4294967296) :
    u32sub a c = a - c := by
  unfold u32sub UINT32_MOD
  omega

theorem dhtBitLoop_no_rate (line : Nat → Nat) :
    ∀ r t b, (dhtBitLoop line r t b).1 ≠ DHT_READ_QUERY_TOO_FREQUENT := by
  intro r
  induction r with
  | zero =>
    intro t b
    simp [dhtBitLoop]
  | succ r ih =>
    intro t b
    simp only [dhtBitLoop]
    split
    · simp
    · split
      · simp
      · apply ih

theorem dhtProcessRawData_no_rate (b : Nat → Nat) :
    (dhtProcessRawData b).1 ≠ DHT_READ_QUERY_TOO_FREQUENT := by
  unfold dhtProcessRawData
  split <;> simp

theorem dhtReadRawData_no_rate (env : GpioEnv) (b : Nat → Nat) :
    (dhtReadRawData env b).1 ≠ DHT_READ_QUERY_TOO_FREQUENT := by
  unfold dhtReadRawData
  dsimp only
  split_ifs <;> first
    | apply dhtBitLoop_no_rate
    | simp

/-- Claim C1: with the handle's last-read timestamp holding the tick count of
a prior attempt, a second `dhtRead` within 2000 ms is rejected with
`DHT_READ_QUERY_TOO_FREQUENT`, and a second `dhtRead` at least 2000 ms later
(within the 32-bit tick range) passes the rate gate, whatever the protocol
run then returns. -/
theorem dhtRead_rate_gate (pDht : dht_t) (t1 t2 : Nat) (env : GpioEnv)
    (hpc : pDht.pc = t1) (hle : t1 ≤ t2) :
    (t2 - t1 < 2000 → (dhtRead pDht t2 env).1 = DHT_READ_QUERY_TOO_FREQUENT)
    ∧ (2000 ≤ t2 - t1 → t2 - t1 < 4294967296 →
        (dhtRead pDht t2 env).1 ≠ DHT_READ_QUERY_TOO_FREQUENT) := by
  constructor
  · intro hlt
    have hs : u32sub t2 pDht.pc < pdMS_TO_TICKS 2000 := by
      rw [hpc, u32sub_small t2 t1 hle (by omega)]
      unfold pdMS_TO_TICKS
      omega
    unfold dhtRead
    rw [if_pos hs]
  · intro hge hlt
    have hs : ¬ u32sub t2 pDht.pc < pdMS_TO_TICKS 2000 := by
      rw [hpc, u32sub_small t2 t1 hle hlt]
      unfold pdMS_TO_TICKS
      omega
    unfold dhtRead
    rw [if_neg hs]
    dsimp only
    split
    · exact dhtProcessRawData_no_rate _
    · exact dhtReadRawData_no_rate env _

/-- Witness for C1 at concrete inputs: a handle created at tick 0, read at
100 ms (rejected) and at 5000 ms (admitted past the gate). -/
theorem dhtRead_rate_gate_w :
    (dhtRead handle0 100 gpio0).1 = DHT_READ_QUERY_TOO_FREQUENT
    ∧ (dhtRead handle0 5000 gpio0).1 ≠ DHT_READ_QUERY_TOO_FREQUENT :=
  ⟨(dhtRead_rate_gate handle0 0 100 gpio0 rfl (by omega)).1 (by omega),
   (dhtRead_rate_gate handle0 0 5000 gpio0 rfl (by omega)).2 (by omega) (by omega)⟩

/-- Claim C10: `dhtRead` returns the handle with every field unchanged on all
paths (gate rejection, raw-read failure, checksum failure, success); in
particular the last-read timestamp `pc` is never written after creation. -/
theorem dhtRead_frame (pDht : dht_t) (ticks : Nat) (env : GpioEnv) :
    (dhtRead pDht ticks env).2.2 = pDht ∧ (dhtRead pDht ticks env).2.2.pc = pDht.pc := by
  have h : (dhtRead pDht ticks env).2.2 = pDht := by
    unfold dhtRead
    split
    · rfl
    · dsimp only
      split
      · rfl
      · rfl
  exact ⟨h, by rw [h]⟩

theorem waitLoop_timeout (line : Nat → Nat) (level : Nat) :
    ∀ fuel c t, (∀ k, k < fuel → line (t + k) = level) →
      waitLoop line level fuel c t = (c + fuel + 1, t + fuel, true) := by
  intro fuel
  induction fuel with
  | zero =>
    intro c t h
    simp [waitLoop]
  | succ fuel ih =>
    intro c t h
    have h0 : line t = level := by
      have := h 0 (by omega)
      simpa using this
    simp only [waitLoop, if_pos h0]
    rw [ih (c + 1) (t + 1) (fun k hk => by
      have := h (k + 1) (by omega)
      rw [show t + (k + 1) = t + 1 + k by omega] at this
      exact this)]
    simp only [Prod.mk.injEq, and_true]
    exact ⟨by omega, by omega⟩

theorem waitLoop_change (line : Nat → Nat) (level : Nat) :
    ∀ j fuel c t, j < fuel → (∀ k, k < j → line (t + k) = level) → line (t + j) ≠ level →
      waitLoop line level fuel c t = (c + j + 1, t + j + 1, false) := by
  intro j
  induction j with
  | zero =>
    intro fuel c t hj hk hx
    obtain ⟨f, rfl⟩ : ∃ f, fuel = f + 1 := ⟨fuel - 1, by omega⟩
    have h0 : line t ≠ level := by simpa using hx
    simp only [waitLoop, if_neg h0]
  | succ j ih =>
    intro fuel c t hj hk hx
    obtain ⟨f, rfl⟩ : ∃ f, fuel = f + 1 := ⟨fuel - 1, by omega⟩
    have h0 : line t = level := by
      have := hk 0 (by omega)
      simpa using this
    simp only [waitLoop, if_pos h0]
    rw [ih f (c + 1) (t + 1) (by omega)
      (fun k hkk => by
        have := hk (k + 1) (by omega)
        rw [show t + (k + 1) = t + 1 + k by omega] at this
        exact this)
      (by
        rw [show t + 1 + j = t + (j + 1) by omega]
        exact hx)]
    simp only [Prod.mk.injEq, and_true]
    exact ⟨by omega, by omega⟩

theorem dhtBitLoop_succ (line : Nat → Nat) (r t : Nat) (b : Nat → Nat) :
    dhtBitLoop line (r + 1) t b =
      (let w1 := waitLoop line DHT_LOW 50 0 t
       if w1.2.2 then (DHT_SENSOR_DID_NOT_SWITCH_TO_HIGH, b, w1.2.1)
       else
         let w2 := waitLoop line DHT_HIGH 70 0 w1.2.1
         if w2.2.2 then (DHT_SENSOR_DID_NOT_SWITCH_TO_LOW, b, w2.2.1)
         else dhtBitLoop line r w2.2.1 fun i => if i = r then w2.1 else b i) := rfl

/-- Claim C7: behaviour of the 40-bit acquisition loop on the bit-period of
the `i`-th received bit (`i = 0` first, entered with `40 - i` bits left).
If the line shows low on all 50 budgeted samples the read fails with
`DHT_SENSOR_DID_NOT_SWITCH_TO_HIGH`; if it leaves low at sample `j` but then
shows high on all 70 budgeted samples the read fails with
`DHT_SENSOR_DID_NOT_SWITCH_TO_LOW`; otherwise, with the line returning low at
high-phase sample `m`, the elapsed high-phase sample count `m + 1` is stored
at frame index `39 - i` and the loop proceeds to the next bit. -/
theorem dhtBitLoop_spec (line : Nat → Nat) (t : Nat) (b : Nat → Nat) (i : Nat) (hi : i < 40) :
    ((∀ k, k < 50 → line (t + k) = DHT_LOW) →
        dhtBitLoop line (40 - i) t b = (DHT_SENSOR_DID_NOT_SWITCH_TO_HIGH, b, t + 50))
    ∧ (∀ j, j < 50 → (∀ k, k < j → line (t + k) = DHT_LOW) → line (t + j) ≠ DHT_LOW →
        (∀ k, k < 70 → line (t + j + 1 + k) = DHT_HIGH) →
        dhtBitLoop line (40 - i) t b = (DHT_SENSOR_DID_NOT_SWITCH_TO_LOW, b, t + j + 1 + 70))
    ∧ (∀ j m, j < 50 → (∀ k, k < j → line (t + k) = DHT_LOW) → line (t + j) ≠ DHT_LOW →
        (∀ k, k < m → line (t + j + 1 + k) = DHT_HIGH) → m < 70 →
        line (t + j + 1 + m) ≠ DHT_HIGH →
        dhtBitLoop line (40 - i) t b
          = dhtBitLoop line (39 - i) (t + j + 1 + m + 1)
              (fun idx => if idx = 39 - i then m + 1 else b idx)) := by
  obtain ⟨r, hr⟩ : ∃ r, 40 - i = r + 1 := ⟨39 - i, by omega⟩
  have hr2 : 39 - i = r := by omega
  rw [hr, hr2]
  refine ⟨?_, ?_, ?_⟩
  · intro hlow
    rw [dhtBitLoop_succ, waitLoop_timeout line DHT_LOW 50 0 t hlow]
    simp
  · intro j hj hk hx hhigh
    rw [dhtBitLoop_succ]
    simp [waitLoop_change line DHT_LOW j 50 0 t hj hk hx,
      waitLoop_timeout line DHT_HIGH 70 0 (t + j + 1) hhigh]
  · intro j m hj hk hx hm hmlt hmx
    rw [dhtBitLoop_succ]
    simp [waitLoop_change line DHT_LOW j 50 0 t hj hk hx,
      waitLoop_change line DHT_HIGH m 70 0 (t + j + 1) hmlt hm hmx]

/-- Witness for C7 at a concrete stream: one low sample (`j = 1` exit), two
high samples (`m = 1` exit), so the first bit stores count 2 at index 39 and
the loop continues at sample 4. -/
theorem dhtBitLoop_spec_w :
    dhtBitLoop line0 40 0 (fun _ => 0)
      = dhtBitLoop line0 39 4 (fun idx => if idx = 39 then 2 else 0) := by
  have h := (dhtBitLoop_spec line0 0 (fun _ => 0) 0 (by omega)).2.2 1 1
    (by omega) (by decide) (by decide) (by decide) (by omega) (by decide)
  simpa using h

/-- Claim C9: with a valid pin, a non-empty name lacking a null terminator in
its first 32 bytes, and a NULL `ppDht`, `dhtInitialize` returns
`DHT_INVALID_INPUT` — but has already written a terminating zero at index 31
of the caller's name buffer, because the truncation happens before the
`ppDht` check. -/
theorem dhtInit_truncates (env : InitEnv) (pin : Nat) (nm : Nat → Nat)
    (hv : env.gpioValid pin = true) (h0 : nm 0 ≠ 0) (hnt : ∀ x, x < 32 → nm x ≠ 0) :
    (dhtInit env pin (some nm) true).result = DHT_INVALID_INPUT
    ∧ (dhtInit env pin (some nm) true).nameBuf
        = some (fun i => if i = 31 then 0 else nm i) := by
  have hscan : ((List.range 32).any fun x => nm x == 0) = false := by
    rw [Bool.eq_false_iff]
    intro hany
    rw [List.any_eq_true] at hany
    obtain ⟨x, hx, hbeq⟩ := hany
    rw [List.mem_range] at hx
    exact hnt x hx (by simpa using hbeq)
  constructor
  · simp [dhtInit, hv, h0, DHT_MAX_SENSOR_NAME, hscan]
  · simp [dhtInit, hv, h0, DHT_MAX_SENSOR_NAME, hscan]

/-- Witness for C9 at concrete inputs: an all-`65` name buffer on pin 5. -/
theorem dhtInit_truncates_w :
    (dhtInit envInit0 5 (some nm65) true).result = DHT_INVALID_INPUT
    ∧ (dhtInit envInit0 5 (some nm65) true).nameBuf
        = some (fun i => if i = 31 then 0 else nm65 i) :=
  dhtInit_truncates envInit0 5 nm65 rfl (by simp [nm65]) (fun x hx => by simp [nm65])

/-- Claim C8 (code bug): a successful `dhtInitialize` never copies the
caller's name into the handle.  With a zero-filled fresh allocation and the
name `A` (byte 65), the call succeeds but the handle's name array still reads
0 where the display name has 65. -/
theorem dhtInit_name_not_recorded :
    (dhtInit envInit0 5 (some nmA) false).result = DHT_OK
    ∧ ((dhtInit envInit0 5 (some nmA) false).handle.map fun h => h.name 0) = some 0
    ∧ nmA 0 = 65 := by
  refine ⟨by decide, by decide, by decide⟩

/-- Claim C5 (code bug): with a correctly paired handle (the token at address
7 records handle address 5), `dhtCleanup` succeeds, clears the caller's
reference and frees the handle block — but never frees the identity-token
block (`freedPvt = []`).  With a mismatched token it refuses and frees
nothing. -/
theorem dhtCleanup_leaks_token :
    dhtCleanup (fun _ => 7) (fun _ => 5) (some (some 5))
      = ⟨DHT_OK, some none, [5], []⟩
    ∧ dhtCleanup (fun _ => 7) (fun _ => 9) (some (some 5))
      = ⟨DHT_INVALID_INPUT, some (some 5), [], []⟩ := by
  refine ⟨by decide, by decide⟩

/-- Claim C2 (code bug): for the sign-bit-set frame with magnitude 231 and
the checksum byte the code itself computes (24, from the two's-complement
bytes), decoding succeeds but yields Celsius whole 39298 — the `uint32_t`
negation followed by unsigned division — instead of anything representing
−23 (neither `65536 - 23` nor `23`). -/
theorem dhtProcess_negative_temp_bug :
    dhtProcessRawData (encodeFrame 0 32999 24)
      = (DHT_OK, some ⟨63219, 47, 39298, 86, 0, 0⟩)
    ∧ (39298 : Nat) ≠ 65536 - 231 / 10
    ∧ (39298 : Nat) ≠ 231 / 10 := by
  refine ⟨by decide, by decide, by decide⟩

/-- Counterexample for C3: a sign-bit-set frame (humidity 0, temperature
field `0x80E7`) whose checksum byte 103 equals the byte-sum over the fields
as transmitted, yet the decoder reports `DHT_INVALID_CHECKSUM` because it
sums the bytes of the negated temperature instead. -/
theorem dhtProcess_checksum_transmitted_ce :
    spec_transmittedChecksum 0 32999 = 103
    ∧ dhtProcessRawData (encodeFrame 0 32999 103) = (DHT_INVALID_CHECKSUM, none) := by
  refine ⟨by decide, by decide⟩

/-- Witness for C3 at concrete frames: a corrupted checksum yields no
measurement, and on a sign-clear frame the code's byte-sum equals the
transmitted byte-sum. -/
theorem dhtProcess_checksum_rule_w :
    (dhtProcessRawData (encodeFrame 653 231 117)).2 = none
    ∧ dhtCalcChecksum (rhOf (encodeFrame 653 231 118))
          (dhtTempSigned (encodeFrame 653 231 118))
        = spec_transmittedChecksum (rhOf (encodeFrame 653 231 118))
            (tempMagOf (encodeFrame 653 231 118)) :=
  ⟨(dhtProcess_checksum_rule (encodeFrame 653 231 117)).2.1 (by decide),
   (dhtProcess_checksum_rule (encodeFrame 653 231 118)).2.2 (by decide)⟩

/-- Counterexample for C4, in both of its failure modes for sign-bit-set
temperature fields.  The triple (653, 0x8064, 115) is checksum-consistent
with its transmitted field bytes, yet the decoder rejects the generated
frame outright.  The triple (653, 0xC000, 79) is also checksum-consistent
and is ACCEPTED (the bytes of the negated value happen to sum like the
transmitted ones), but decoding stores Celsius whole 37683 — recovering
neither the field value 0xC000 (whole 4915), nor the magnitude reading
16384/10 = 1638, nor its 16-bit two's-complement 63898. -/
theorem dhtProcess_roundtrip_ce :
    (spec_transmittedChecksum 653 32868 = 115
      ∧ (dhtProcessRawData (encodeFrame 653 32868 115)).1 = DHT_INVALID_CHECKSUM
      ∧ (dhtProcessRawData (encodeFrame 653 32868 115)).2 = none)
    ∧ (spec_transmittedChecksum 653 49152 = 79
      ∧ (dhtProcessRawData (encodeFrame 653 49152 79)).1 = DHT_OK
      ∧ ((dhtProcessRawData (encodeFrame 653 49152 79)).2.map dht_data_t.csTempWhole)
          = some 37683
      ∧ (37683 : Nat) ≠ 49152 / 10
      ∧ (37683 : Nat) ≠ 16384 / 10
      ∧ (37683 : Nat) ≠ 65536 - 16384 / 10) := by
  refine ⟨⟨by decide, by decide, by decide⟩,
    by decide, by decide, by decide, by decide, by decide, by decide⟩

/-- Witness for C4 at the concrete triple (500, 105, 94). -/
theorem dhtProcess_roundtrip_w :
    dhtProcessRawData (encodeFrame 500 105 94)
      = (DHT_OK, some ⟨50, 90, 10, 50, 50, 0⟩)
    ∧ rhOf (encodeFrame 500 105 94) = 500
    ∧ tempMagOf (encodeFrame 500 105 94) = 105
    ∧ checksumOf (encodeFrame 500 105 94) = 94 := by
  have h := dhtProcess_roundtrip 500 105 94 (by omega) (by omega) (by omega) (by decide)
  simpa using h

/-- Counterexample for C6: on the spec's concrete scenario the decoder stores
Celsius fraction 10 (hundredths, per `(temp*10) % 100`), not 1. -/
theorem dhtProcess_concrete_ce :
    ((dhtProcessRawData (encodeFrame 653 231 118)).2.map dht_data_t.csTempFraction) = some 10
    ∧ (10 : Nat) ≠ 1 := by
  refine ⟨by decide, by decide⟩

/-- Claim C6 (amended): decoding the frame for humidity 653, temperature 231,
checksum 118 passes the checksum and yields humidity 65 / 3, Celsius 23 / 10
(the code keeps two fractional digits), Fahrenheit 73 / 58. -/
theorem dhtProcess_concrete :
    dhtProcessRawData (encodeFrame 653 231 118)
      = (DHT_OK, some ⟨73, 58, 23, 10, 65, 3⟩) := by decide
